import Mathlib

/-!
Verification of the zq type system and field-path evaluator.

This development shallowly embeds the Go sources of the repository:

* `src/zng/type.go` — the type registry (`typeMap`, `addType`,
  `LookupType`, `parseType`, `parseWord`, `isIdChar`,
  `LookupTypeRecord`) and the container helpers (`InnerType`,
  `IsContainerType`, `ContainerLength`, `TypedEncoding.VectorIndex`).
* `src/expr/fieldexpr.go` — the compiled field-path evaluator
  (`arrayIndex.apply`, `fieldRead.apply`, and the resolver closure
  built by `CompileFieldExpr`).

Go byte strings are modelled as Lean `String`/`List Char` (all inputs
of interest are ASCII); `zcode.Bytes` bodies are modelled as `List Nat`
(byte values), with Go `nil` slices modelled as `none`.  Go `error`
results are modelled with `Except`/`Option` error components.  Go's
unbounded loops and recursion are modelled with explicit recursion
bounds that are always sufficient (each step of the byte iterator
consumes at least one byte, and each level of the type parser consumes
at least one character).  Parts of the repository that the Go sources
reference but that are not present under `src/` (the `zcode` iterator,
the `String` methods of the type objects, the compound-type body
parsers, and the `zng.Record` accessors) are modelled from the spec;
each such definition carries a doc comment starting with `Modelled
from the spec:`.
-/

/-- The primitive zeek types of `src/zng/type.go` lines 43-57
(`TypeBool` … `TypeUnset`), one constructor per singleton object. -/
inductive PrimType
  | bool | count | int | double | time | interval | string | pattern
  | port | addr | subnet | enum | unset
  deriving DecidableEq, Repr

/-- A zeek `Type` (`src/zng/type.go`): a primitive singleton, a
`TypeSet` with its `innerType`, a `TypeVector` with its `typ`, or a
`TypeRecord` with its `Columns` (a list of name/type pairs mirroring
`zng.Column`). -/
inductive ZType
  | prim : PrimType → ZType
  | set : ZType → ZType
  | vector : ZType → ZType
  | record : List (String × ZType) → ZType
  deriving Repr

mutual

/-- Decidable structural equality for types (Go compares interned
types by pointer; in this structural model pointer equality of interned
objects corresponds to structural equality). -/
def ZType.decEq : (a b : ZType) → Decidable (a = b)
  | .prim a, .prim b =>
    if h : a = b then .isTrue (by rw [h]) else .isFalse (by simp [h])
  | .prim _, .set _ => .isFalse (by intro h; cases h)
  | .prim _, .vector _ => .isFalse (by intro h; cases h)
  | .prim _, .record _ => .isFalse (by intro h; cases h)
  | .set _, .prim _ => .isFalse (by intro h; cases h)
  | .set a, .set b =>
    match ZType.decEq a b with
    | .isTrue h => .isTrue (by rw [h])
    | .isFalse h => .isFalse (by intro hh; injection hh with h1; exact h h1)
  | .set _, .vector _ => .isFalse (by intro h; cases h)
  | .set _, .record _ => .isFalse (by intro h; cases h)
  | .vector _, .prim _ => .isFalse (by intro h; cases h)
  | .vector _, .set _ => .isFalse (by intro h; cases h)
  | .vector a, .vector b =>
    match ZType.decEq a b with
    | .isTrue h => .isTrue (by rw [h])
    | .isFalse h => .isFalse (by intro hh; injection hh with h1; exact h h1)
  | .vector _, .record _ => .isFalse (by intro h; cases h)
  | .record _, .prim _ => .isFalse (by intro h; cases h)
  | .record _, .set _ => .isFalse (by intro h; cases h)
  | .record _, .vector _ => .isFalse (by intro h; cases h)
  | .record a, .record b =>
    match colsDecEq a b with
    | .isTrue h => .isTrue (by rw [h])
    | .isFalse h => .isFalse (by intro hh; injection hh with h1; exact h h1)
  termination_by structural a => a

/-- Decidable equality of column lists. -/
def colsDecEq : (a b : List (String × ZType)) → Decidable (a = b)
  | [], [] => .isTrue rfl
  | [], _ :: _ => .isFalse (by intro h; cases h)
  | _ :: _, [] => .isFalse (by intro h; cases h)
  | (n, t) :: as, (m, u) :: bs =>
    if hn : n = m then
      match ZType.decEq t u, colsDecEq as bs with
      | .isTrue h1, .isTrue h2 => .isTrue (by rw [hn, h1, h2])
      | .isFalse h1, _ =>
        .isFalse (by
          intro h; injection h with h3 h4; injection h3 with h5 h6; exact h1 h6)
      | _, .isFalse h2 =>
        .isFalse (by intro h; injection h with h3 h4; exact h2 h4)
    else
      .isFalse (by
        intro h; injection h with h3 h4; injection h3 with h5 h6; exact hn h5)
  termination_by structural a => a

end

instance : DecidableEq ZType := ZType.decEq

instance {ε α : Type} [DecidableEq ε] [DecidableEq α] :
    DecidableEq (Except ε α) := fun a b =>
  match a, b with
  | .ok x, .ok y =>
    if h : x = y then .isTrue (by rw [h]) else .isFalse (by simp [h])
  | .error x, .error y =>
    if h : x = y then .isTrue (by rw [h]) else .isFalse (by simp [h])
  | .ok _, .error _ => .isFalse (by intro h; cases h)
  | .error _, .ok _ => .isFalse (by intro h; cases h)

/-- Modelled from the spec: ASCII whitespace, standing in for
`unicode.IsSpace` as used by Go's `strings.TrimSpace` (all strings of
interest are ASCII). -/
def isSpace (c : Char) : Bool :=
  c = ' ' || c = '\t' || c = '\n' || c = '\r'

/-- Modelled from the spec: `strings.TrimSpace` on the character list,
removing leading and trailing whitespace. -/
def trimChars (cs : List Char) : List Char :=
  ((cs.dropWhile isSpace).reverse.dropWhile isSpace).reverse

/-- Go `strings.TrimSpace`, lifted to `String`. -/
def trimSpace (s : String) : String :=
  String.mk (trimChars s.data)

/-- `isIdChar` (`src/zng/type.go` lines 103-105): letters, digits,
underscore and dot are identifier characters. -/
def isIdChar (c : Char) : Bool :=
  ('a' ≤ c && c ≤ 'z') || ('A' ≤ c && c ≤ 'Z') ||
    ('0' ≤ c && c ≤ '9') || c = '_' || c = '.'

/-- `parseWord` (`src/zng/type.go` lines 107-119): trim whitespace,
take the longest prefix of identifier characters; returns
`(rest, word)`, and `("", "")` when no identifier character leads. -/
def parseWord (s : String) : String × String :=
  let t := trimChars s.data
  let w := t.takeWhile isIdChar
  match w with
  | [] => ("", "")
  | _ => (String.mk (t.drop w.length), String.mk w)

mutual

/-- Modelled from the spec: the canonical printed form of a type
(§4.D), i.e. the `String()` methods of the type objects, whose files
are not under `src/`.  Primitives print their zeek names; compounds
print `set[T]`, `vector[T]`, `record[n1:T1,...]`. -/
def typeChars : ZType → List Char
  | .prim .bool => ['b', 'o', 'o', 'l']
  | .prim .count => ['c', 'o', 'u', 'n', 't']
  | .prim .int => ['i', 'n', 't']
  | .prim .double => ['d', 'o', 'u', 'b', 'l', 'e']
  | .prim .time => ['t', 'i', 'm', 'e']
  | .prim .interval => ['i', 'n', 't', 'e', 'r', 'v', 'a', 'l']
  | .prim .string => ['s', 't', 'r', 'i', 'n', 'g']
  | .prim .pattern => ['p', 'a', 't', 't', 'e', 'r', 'n']
  | .prim .port => ['p', 'o', 'r', 't']
  | .prim .addr => ['a', 'd', 'd', 'r']
  | .prim .subnet => ['s', 'u', 'b', 'n', 'e', 't']
  | .prim .enum => ['e', 'n', 'u', 'm']
  | .prim .unset => ['u', 'n', 's', 'e', 't']
  | .set inner => 's' :: 'e' :: 't' :: '[' :: (typeChars inner ++ [']'])
  | .vector inner =>
      'v' :: 'e' :: 'c' :: 't' :: 'o' :: 'r' :: '[' :: (typeChars inner ++ [']'])
  | .record cols =>
      'r' :: 'e' :: 'c' :: 'o' :: 'r' :: 'd' :: '[' :: (colsChars cols ++ [']'])
  termination_by structural t => t

/-- Modelled from the spec: the comma-separated `name:type` column list
inside a printed record type. -/
def colsChars : List (String × ZType) → List Char
  | [] => []
  | [(n, t)] => n.data ++ ':' :: typeChars t
  | (n, t) :: rest => n.data ++ ':' :: typeChars t ++ ',' :: colsChars rest
  termination_by structural cs => cs

end

/-- The printed form of a type, as `Type.String()` returns it. -/
def typeString (t : ZType) : String :=
  String.mk (typeChars t)

/-- Modelled from the spec: `recordString(columns)` (referenced by
`LookupTypeRecord` but defined in a file not under `src/`) — the
canonical printed form of a record type with the given columns. -/
def recordString (cols : List (String × ZType)) : String :=
  typeString (ZType.record cols)

/-- The registry state: the `typeMap` of `src/zng/type.go`, a map from
printed type strings to canonical type objects, modelled as an
association list. -/
abbrev Registry : Type := List (String × ZType)

/-- Registry lookup, `typeMap[key]`. -/
def regFind (s : Registry) (key : String) : Option ZType :=
  match s with
  | [] => none
  | (k, t) :: rest => if k = key then some t else regFind rest key

/-- The initial `typeMap` (`src/zng/type.go` lines 60-75): the zeek
primitive names, with `regexp` as a second key for the pattern type. -/
def typeMap0 : Registry :=
  [("bool", .prim .bool), ("count", .prim .count), ("int", .prim .int),
   ("double", .prim .double), ("time", .prim .time),
   ("interval", .prim .interval), ("string", .prim .string),
   ("pattern", .prim .pattern), ("regexp", .prim .pattern),
   ("port", .prim .port), ("addr", .prim .addr),
   ("subnet", .prim .subnet), ("enum", .prim .enum),
   ("unset", .prim .unset)]

/-- `addType` (`src/zng/type.go` lines 90-101): intern a type under its
printed form; if the key is already bound the previously stored object
wins and is returned, otherwise the new type is stored. -/
def addType (t : ZType) (s : Registry) : ZType × Registry :=
  match regFind s (typeString t) with
  | some old => (old, s)
  | none => (t, (typeString t, t) :: s)

/-- `LookupTypeRecord` (`src/zng/type.go` lines 345-369): intern a
record type keyed by `recordString(columns)`.  If the key is bound, the
stored object is returned after a `*TypeRecord` type assertion (a
non-record stored under the key would panic in Go, modelled as `none`);
otherwise a fresh record type is stored and returned. -/
def LookupTypeRecord (cols : List (String × ZType)) (s : Registry) :
    Option ZType × Registry :=
  match regFind s (recordString cols) with
  | some (ZType.record rc) => (some (ZType.record rc), s)
  | some _ => (none, s)
  | none => (some (ZType.record cols), (recordString cols, ZType.record cols) :: s)

mutual

/-- `parseType` (`src/zng/type.go` lines 138-176).  First the whole
(trimmed) input is looked up in the registry; then the leading word is
parsed and looked up; the words `set`, `vector` and `record` dispatch
to the compound body parsers and intern the result with `addType`.
Returns `(rest, type)` and the updated registry.  The recursion bound
`fuel` is consulted only before recursing into a compound body, so the
primitive and whole-string paths are exactly the Go code. -/
def parseType (fuel : Nat) (input : String) (s : Registry) :
    Except String (String × ZType × Registry) :=
  match regFind s (trimSpace input) with
  | some t => .ok ("", t, s)
  | none =>
    let (rest, word) := parseWord input
    if word = "" then .error ("unknown type: " ++ input)
    else
      match regFind s word with
      | some t => .ok (rest, t, s)
      | none =>
        match fuel with
        | 0 => .error "type recursion bound exceeded"
        | f + 1 =>
          if word = "set" then
            match parseSetTypeBody f rest s with
            | .error e => .error e
            | .ok (rest1, t, s1) =>
              let (t1, s2) := addType t s1
              .ok (rest1, t1, s2)
          else if word = "vector" then
            match parseVectorTypeBody f rest s with
            | .error e => .error e
            | .ok (rest1, t, s1) =>
              let (t1, s2) := addType t s1
              .ok (rest1, t1, s2)
          else if word = "record" then
            match parseRecordTypeBody f rest s with
            | .error e => .error e
            | .ok (rest1, t, s1) =>
              let (t1, s2) := addType t s1
              .ok (rest1, t1, s2)
          else .error ("unknown type: " ++ word)
  termination_by structural fuel

/-- Modelled from the spec: `parseSetTypeBody` is called by `parseType`
but its file is not under `src/`; per the §4.D grammar it parses
`[` type `]` and builds the set type. -/
def parseSetTypeBody (fuel : Nat) (input : String) (s : Registry) :
    Except String (String × ZType × Registry) :=
  match fuel with
  | 0 => .error "type recursion bound exceeded"
  | f + 1 =>
    match (trimSpace input).data with
    | '[' :: r1 =>
      match parseType f (String.mk r1) s with
      | .error e => .error e
      | .ok (rest, inner, s1) =>
        match (trimSpace rest).data with
        | ']' :: r2 => .ok (String.mk r2, ZType.set inner, s1)
        | _ => .error "syntax error in type string"
    | _ => .error "syntax error in type string"
  termination_by structural fuel

/-- Modelled from the spec: `parseVectorTypeBody`, the `[` type `]`
body of a vector type (§4.D grammar, array form). -/
def parseVectorTypeBody (fuel : Nat) (input : String) (s : Registry) :
    Except String (String × ZType × Registry) :=
  match fuel with
  | 0 => .error "type recursion bound exceeded"
  | f + 1 =>
    match (trimSpace input).data with
    | '[' :: r1 =>
      match parseType f (String.mk r1) s with
      | .error e => .error e
      | .ok (rest, inner, s1) =>
        match (trimSpace rest).data with
        | ']' :: r2 => .ok (String.mk r2, ZType.vector inner, s1)
        | _ => .error "syntax error in type string"
    | _ => .error "syntax error in type string"
  termination_by structural fuel

/-- Modelled from the spec: `parseRecordTypeBody`, the
`[` (col (`,` col)*)? `]` body of a record type (§4.D grammar). -/
def parseRecordTypeBody (fuel : Nat) (input : String) (s : Registry) :
    Except String (String × ZType × Registry) :=
  match fuel with
  | 0 => .error "type recursion bound exceeded"
  | f + 1 =>
    match (trimSpace input).data with
    | '[' :: r1 =>
      match (trimSpace (String.mk r1)).data with
      | ']' :: r2 => .ok (String.mk r2, ZType.record [], s)
      | _ =>
        match parseColumns f (String.mk r1) s with
        | .error e => .error e
        | .ok (rest, cols, s1) => .ok (rest, ZType.record cols, s1)
    | _ => .error "syntax error in type string"
  termination_by structural fuel

/-- Modelled from the spec: the column list of a record type body,
`ident : type` separated by `,` and closed by `]` (§4.D grammar);
identifiers are read with the source's `parseWord`. -/
def parseColumns (fuel : Nat) (input : String) (s : Registry) :
    Except String (String × List (String × ZType) × Registry) :=
  match fuel with
  | 0 => .error "type recursion bound exceeded"
  | f + 1 =>
    let (rest, name) := parseWord input
    if name = "" then .error ("syntax error in type string: " ++ input)
    else
      match (trimSpace rest).data with
      | ':' :: r1 =>
        match parseType f (String.mk r1) s with
        | .error e => .error e
        | .ok (r2, t, s1) =>
          match (trimSpace r2).data with
          | ',' :: r3 =>
            match parseColumns f (String.mk r3) s1 with
            | .error e => .error e
            | .ok (r4, cols, s2) => .ok (r4, (name, t) :: cols, s2)
          | ']' :: r3 => .ok (String.mk r3, [(name, t)], s1)
          | _ => .error "syntax error in type string"
      | _ => .error "syntax error in type string"
  termination_by structural fuel

end

/-- `LookupType` (`src/zng/type.go` lines 121-131): parse a type
string, discarding the unconsumed remainder (`//XXX check if rest has
junk and flag an error?`). -/
def LookupType (input : String) (s : Registry) :
    Except String (ZType × Registry) :=
  match parseType (input.length + 1) input s with
  | .error e => .error e
  | .ok (_, t, s1) => .ok (t, s1)

/-- The error values of `src/zng/type.go` lines 21-26 (`ErrLenUnset`,
`ErrNotContainer`, `ErrNotVector`, `ErrIndex`) together with the
iterator's truncation error. -/
inductive ZErr
  | lenUnset | notContainer | notVector | index | truncated
  deriving DecidableEq, Repr

/-- Modelled from the spec: the base-128 little-endian `uvarint`
decoder (§4.A) used by the `zcode` iterator, whose package is not under
`src/`.  Returns the decoded value and the remaining bytes. -/
def uvarint : List Nat → Option (Nat × List Nat)
  | [] => none
  | b :: rest =>
    if b < 128 then some (b, rest)
    else
      match uvarint rest with
      | some (v, rest1) => some (b % 128 + 128 * v, rest1)
      | none => none

/-- Modelled from the spec: one step of the tag-counted container
iterator (`zcode.Iter.Next`, §4.B): read a tag; tag 0 is an unset
primitive, tag 1 an unset container; otherwise with `t = tag - 2` the
next `t >>> 1` bytes are the element body and `t &&& 1` marks a
container.  Unset elements yield `none` bodies (Go `nil`). -/
def iterNext (bs : List Nat) : Except ZErr (Option (List Nat) × Bool × List Nat) :=
  match uvarint bs with
  | none => .error .truncated
  | some (tag, rest) =>
    if tag = 0 then .ok (none, false, rest)
    else if tag = 1 then .ok (none, true, rest)
    else
      let n := (tag - 2) / 2
      if rest.length < n then .error .truncated
      else .ok (some (rest.take n), (tag - 2) % 2 = 1, rest.drop n)

/-- The element sequence a container body yields under the iterator:
`IterYields bs elems` holds when repeatedly calling `iterNext` on `bs`
until exhaustion succeeds and produces exactly the `(body, container)`
pairs `elems`. -/
inductive IterYields : List Nat → List (Option (List Nat) × Bool) → Prop
  | nil : IterYields [] []
  | cons {bs : List Nat} {v : Option (List Nat)} {c : Bool}
      {rest : List Nat} {elems : List (Option (List Nat) × Bool)} :
      iterNext bs = .ok (v, c, rest) → IterYields rest elems →
      IterYields bs ((v, c) :: elems)

/-- The shared shape of the element-walking loops of
`fieldRead.apply` (`src/expr/fieldexpr.go` lines 59-77) and
`TypedEncoding.VectorIndex` (`src/zng/type.go` lines 304-322): check
`Done` before every step, call `Next` `k+1` times, and return the last
body; exhaustion yields `ErrIndex` and iterator errors propagate. -/
def iterWalk (bs : List Nat) (k : Nat) : Except ZErr (Option (List Nat)) :=
  if bs.isEmpty then .error .index
  else
    match iterNext bs with
    | .error e => .error e
    | .ok (v, _, rest) =>
      match k with
      | 0 => .ok v
      | k1 + 1 => iterWalk rest k1
  termination_by structural k

/-- The counting loop of `ContainerLength` (`src/zng/type.go` lines
263-270): call `Next` until `Done`, counting elements and propagating
iterator errors.  The recursion bound `fuel` is an artifact of the
embedding; `bs.length + 1` always suffices because every iterator step
consumes at least one byte. -/
def containerCountGo : Nat → List Nat → Except ZErr Nat
  | 0, _ => .error .truncated
  | f + 1, bs =>
    if bs.isEmpty then .ok 0
    else
      match iterNext bs with
      | .error e => .error e
      | .ok (_, _, rest) =>
        match containerCountGo f rest with
        | .error e => .error e
        | .ok n => .ok (n + 1)

/-- A typed value: the pair of a type and a byte-slice body shared by
`zng.TypedEncoding{Type, Body}` (`src/zng/type.go`) and
`zng.Value{Type, Bytes}` (used by `src/expr/fieldexpr.go`); a `none`
type models a nil Go interface and a `none` body models a nil byte
slice (an unset value). -/
structure Value where
  typ : Option ZType
  body : Option (List Nat)
  deriving DecidableEq, Repr

/-- The zero value `zng.Value{}` / `zng.TypedEncoding{}`. -/
def Value.empty : Value := ⟨none, none⟩

/-- `TypedEncoding` is the same pair as `Value` in this model. -/
abbrev TypedEncoding : Type := Value

/-- `InnerType` (`src/zng/type.go` lines 182-191): the element type of
a set or vector, `none` otherwise. -/
def InnerType : Option ZType → Option ZType
  | some (ZType.set inner) => some inner
  | some (ZType.vector t) => some t
  | _ => none

/-- `IsContainerType` (`src/zng/type.go` lines 210-217): sets, vectors
and records are containers. -/
def IsContainerType : ZType → Bool
  | .set _ => true
  | .vector _ => true
  | .record _ => true
  | _ => false

/-- `ContainerLength` (`src/zng/type.go` lines 257-274): for sets and
vectors, a nil body is `ErrLenUnset` and otherwise the elements are
counted by iterating; every other type (records included) is
`ErrNotContainer`.  Mirrors Go's `(int, error)` return. -/
def ContainerLength (e : TypedEncoding) : Int × Option ZErr :=
  match e.typ with
  | some (ZType.set _) | some (ZType.vector _) =>
    match e.body with
    | none => (-1, some .lenUnset)
    | some bs =>
      match containerCountGo (bs.length + 1) bs with
      | .error er => (-1, some er)
      | .ok n => ((n : Int), none)
  | _ => (-1, some .notContainer)

/-- `TypedEncoding.VectorIndex` (`src/zng/type.go` lines 304-322):
index a vector-typed encoding; a non-vector type is `ErrNotVector`, a
negative index is `ErrIndex`, and walking past the last element is
`ErrIndex`; a found element carries the vector's element type.  This is
also the `Value.ArrayIndex` method invoked by `arrayIndex.apply` in
`src/expr/fieldexpr.go` (its file is not under `src/`; same code in
the value-era naming). -/
def VectorIndex (e : Value) (idx : Int) : Except ZErr Value :=
  match e.typ with
  | some (ZType.vector inner) =>
    if idx < 0 then .error .index
    else
      match iterWalk (e.body.getD []) idx.toNat with
      | .error er => .error er
      | .ok zv => .ok ⟨some inner, zv⟩
  | _ => .error .notVector

/-- `arrayIndex.apply` (`src/expr/fieldexpr.go` lines 33-43): on
`ErrIndex` return the unset value carrying `InnerType(e.Type)`, on any
other error return the empty value. -/
def arrayIndexApply (idx : Int) (e : Value) : Value :=
  match VectorIndex e idx with
  | .ok el => el
  | .error .index => ⟨InnerType e.typ, none⟩
  | .error _ => Value.empty

/-- The column scan of `fieldRead.apply` (`src/expr/fieldexpr.go`
lines 59-60): the first column whose name matches, with its ordinal
position. -/
def findCol : List (String × ZType) → String → Option (Nat × ZType)
  | [], _ => none
  | (n, t) :: rest, f =>
    if n = f then some (0, t)
    else
      match findCol rest f with
      | some (i, t1) => some (i + 1, t1)
      | none => none

/-- `fieldRead.apply` (`src/expr/fieldexpr.go` lines 49-78): a field
read on a non-record or an absent field returns the empty value;
otherwise the iterator is walked to the column's position (checking
`Done` before every step), returning the empty value on exhaustion or
iterator error and `Value{col.Type, v}` on success. -/
def fieldReadApply (field : String) (e : Value) : Value :=
  match e.typ with
  | some (ZType.record cols) =>
    match findCol cols field with
    | some (n, t) =>
      match iterWalk (e.body.getD []) n with
      | .error _ => Value.empty
      | .ok v => ⟨some t, v⟩
    | none => Value.empty
  | _ => Value.empty

/-- A compiled field-path operation (`fieldop` in
`src/expr/fieldexpr.go`): an `arrayIndex` or a `fieldRead`. -/
inductive FieldOp
  | index : Int → FieldOp
  | read : String → FieldOp

/-- Dispatch of `fieldop.apply`. -/
def applyOp : FieldOp → Value → Value
  | .index i, e => arrayIndexApply i e
  | .read f, e => fieldReadApply f e

/-- The op loop of the resolver closure (`src/expr/fieldexpr.go` lines
131-136): apply each op in turn, stopping early when the intermediate
value's type becomes nil. -/
def applyOps : List FieldOp → Value → Value
  | [], e => e
  | op :: rest, e =>
    let e1 := applyOp op e
    if e1.typ.isNone then e1 else applyOps rest e1

/-- Modelled from the spec: a `zng.Record` (its file is not under
`src/`) is a record-typed value: the columns of its `TypeRecord` and
its raw tag-counted body (§3.2). -/
structure Record where
  recType : List (String × ZType)
  raw : Option (List Nat)

/-- Modelled from the spec: the record type's column table
`TypeRecord.LUT` (§4.G step 1) mapping a top-level field name to its
column ordinal; column names are unique per record type (§3.3), so the
first match is the match. -/
def lut : List (String × ZType) → String → Option Nat
  | [], _ => none
  | (n, _) :: rest, f =>
    if n = f then some 0
    else
      match lut rest f with
      | some i => some (i + 1)
      | none => none

/-- Modelled from the spec: `zng.Record.Value(col)` (§4.G step 2):
advance the container iterator to the column's ordinal position and
return the column's byte slice together with the column's type. -/
def recValue (r : Record) (col : Nat) : Value :=
  match r.recType.get? col with
  | none => Value.empty
  | some (_, t) =>
    match iterWalk (r.raw.getD []) col with
    | .error _ => Value.empty
    | .ok v => ⟨some t, v⟩

/-- The resolver closure returned by `CompileFieldExpr`
(`src/expr/fieldexpr.go` lines 124-138): look the top-level field up in
the record type's column table (absent means the empty value), fetch
that column's value, then apply the compiled ops. -/
def resolve (field : String) (ops : List FieldOp) (r : Record) : Value :=
  match lut r.recType field with
  | none => Value.empty
  | some col => applyOps ops (recValue r col)

/-- The inner `record[compass:string,degree:double]` type of the
claimed scenario (the spec writes its `float64` as this
implementation's `double`). -/
def LLcols : List (String × ZType) :=
  [("compass", .prim .string), ("degree", .prim .double)]

/-- The outer `record[city:string,lat:LL,long:LL]` columns of the
claimed scenario. -/
def northCols : List (String × ZType) :=
  [("city", .prim .string), ("lat", .record LLcols), ("long", .record LLcols)]

/-- The tag-counted body of the value `[NorthPole;[N;90;]-;]`: the
9-byte primitive `NorthPole` (tag 20), the container `[N;90;]` (tag 13
over the 5 bytes `4 'N' 6 '9' '0'`), and the unset container `-`
(tag 1). -/
def northRaw : List Nat :=
  [20, 78, 111, 114, 116, 104, 80, 111, 108, 101, 13, 4, 78, 6, 57, 48, 1]

/-- The record value `1:[NorthPole;[N;90;]-;]` of the claimed
scenario. -/
def northRec : Record := ⟨northCols, some northRaw⟩

/-- The identifier start class asserted by the spec (§6.4):
`[A-Za-z_$]`.  This definition follows the claim's words, for
comparison against the source's `isIdChar`. -/
def claimIdStart (c : Char) : Bool :=
  ('A' ≤ c && c ≤ 'Z') || ('a' ≤ c && c ≤ 'z') || c = '_' || c = '$'

/-- The identifier continuation class asserted by the spec (§6.4):
`[A-Za-z0-9_$]`. -/
def claimIdCont (c : Char) : Bool :=
  claimIdStart c || ('0' ≤ c && c ≤ '9')

/-- The identifier language asserted by the claim:
`[A-Za-z_$][A-Za-z0-9_$]*`. -/
def claimIdent (s : String) : Bool :=
  match s.data with
  | [] => false
  | c :: cs => claimIdStart c && cs.all claimIdCont

theorem len_takeWhile_le (p : Char → Bool) (l : List Char) :
    (l.takeWhile p).length ≤ l.length := by
  induction l with
  | nil => exact Nat.le_refl 0
  | cons a l ih =>
    rw [List.takeWhile_cons]
    rcases hp : p a
    · simp
    · simpa using Nat.succ_le_succ ih

theorem len_dropWhile_le (p : Char → Bool) (l : List Char) :
    (l.dropWhile p).length ≤ l.length := by
  induction l with
  | nil => exact Nat.le_refl 0
  | cons a l ih =>
    rw [List.dropWhile_cons]
    rcases hp : p a
    · simp
    · simp only [if_true]
      exact Nat.le_trans ih (Nat.le_succ _)

theorem dropWhile_len_eq (p : Char → Bool) (l : List Char)
    (h : (l.dropWhile p).length = l.length) : l.dropWhile p = l := by
  induction l with
  | nil => rfl
  | cons a l ih =>
    rw [List.dropWhile_cons] at h ⊢
    rcases hp : p a
    · simp [hp]
    · simp only [hp, if_true] at h ⊢
      exfalso
      have := len_dropWhile_le p l
      simp only [List.length_cons] at h
      omega

theorem len_trimChars_le (l : List Char) : (trimChars l).length ≤ l.length := by
  unfold trimChars
  calc ((l.dropWhile isSpace).reverse.dropWhile isSpace).reverse.length
      = ((l.dropWhile isSpace).reverse.dropWhile isSpace).length := by
        rw [List.length_reverse]
    _ ≤ (l.dropWhile isSpace).reverse.length := len_dropWhile_le _ _
    _ = (l.dropWhile isSpace).length := by rw [List.length_reverse]
    _ ≤ l.length := len_dropWhile_le _ _

theorem trimChars_len_eq (l : List Char)
    (h : (trimChars l).length = l.length) : trimChars l = l := by
  unfold trimChars at h ⊢
  have h1 : ((l.dropWhile isSpace).reverse.dropWhile isSpace).length =
      l.length := by rw [← List.length_reverse (((l.dropWhile isSpace)).reverse.dropWhile isSpace)]; exact h
  have h2 : (l.dropWhile isSpace).length = l.length := by
    have ha := len_dropWhile_le isSpace (l.dropWhile isSpace).reverse
    rw [List.length_reverse] at ha
    have hb := len_dropWhile_le isSpace l
    omega
  have h3 : l.dropWhile isSpace = l := dropWhile_len_eq _ _ h2
  rw [h3] at h1 ⊢
  have h4 : l.reverse.dropWhile isSpace = l.reverse :=
    dropWhile_len_eq _ _ (by rw [h1, List.length_reverse])
  rw [h4, List.reverse_reverse]

theorem dropWhile_eq_self_of_all (p : Char → Bool) (l : List Char)
    (h : ∀ c ∈ l, p c = false) : l.dropWhile p = l := by
  cases l with
  | nil => rfl
  | cons a l => rw [List.dropWhile_cons, h a (List.mem_cons_self a l)]; simp

theorem trimChars_eq_self_of_all (l : List Char)
    (h : ∀ c ∈ l, isSpace c = false) : trimChars l = l := by
  unfold trimChars
  rw [dropWhile_eq_self_of_all _ _ h,
    dropWhile_eq_self_of_all _ _ (fun c hc => h c (List.mem_reverse.mp hc)),
    List.reverse_reverse]

theorem dropWhile_eq_self_of_head (p : Char → Bool) (l : List Char)
    (h : ∀ c, l.head? = some c → p c = false) : l.dropWhile p = l := by
  cases l with
  | nil => rfl
  | cons a l => rw [List.dropWhile_cons, h a rfl]; simp

theorem trimChars_eq_self_of_ends (l : List Char)
    (hh : ∀ c, l.head? = some c → isSpace c = false)
    (hl : ∀ c, l.getLast? = some c → isSpace c = false) : trimChars l = l := by
  unfold trimChars
  rw [dropWhile_eq_self_of_head _ _ hh,
    dropWhile_eq_self_of_head _ _ (by rw [List.head?_reverse]; exact hl),
    List.reverse_reverse]

theorem isIdChar_not_space {c : Char} (h : isIdChar c = true) :
    isSpace c = false := by
  rcases hc : isSpace c
  · rfl
  · exfalso
    simp only [isSpace, Bool.or_eq_true, decide_eq_true_eq] at hc
    rcases hc with ((h1 | h1) | h1) | h1 <;> subst h1 <;>
      exact absurd h (by decide)

theorem uvarint_length {bs rest : List Nat} {v : Nat}
    (h : uvarint bs = some (v, rest)) : rest.length < bs.length := by
  induction bs generalizing v rest with
  | nil => exact absurd h (by simp [uvarint])
  | cons b bs ih =>
    rw [uvarint] at h
    by_cases hb : b < 128
    · rw [if_pos hb] at h
      injection h with h1
      injection h1 with h2 h3
      subst h3
      exact Nat.lt_succ_self _
    · rw [if_neg hb] at h
      rcases hu : uvarint bs with _ | p
      · rw [hu] at h; cases h
      · rcases p with ⟨v1, rest1⟩
        rw [hu] at h
        injection h with h1
        injection h1 with h2 h3
        subst h3
        exact Nat.lt_trans (ih hu) (Nat.lt_succ_self _)

theorem iterNext_of_uvarint {bs rest0 : List Nat} {tag : Nat}
    (hu : uvarint bs = some (tag, rest0)) :
    iterNext bs =
      (if tag = 0 then .ok (none, false, rest0)
       else if tag = 1 then .ok (none, true, rest0)
       else if rest0.length < (tag - 2) / 2 then .error .truncated
       else .ok (some (rest0.take ((tag - 2) / 2)),
         decide ((tag - 2) % 2 = 1), rest0.drop ((tag - 2) / 2))) := by
  rw [iterNext, hu]

theorem iterNext_length {bs rest : List Nat} {v : Option (List Nat)} {c : Bool}
    (h : iterNext bs = .ok (v, c, rest)) : rest.length < bs.length := by
  rcases hu : uvarint bs with _ | p
  · rw [iterNext, hu] at h; cases h
  · rcases p with ⟨tag, rest0⟩
    rw [iterNext_of_uvarint hu] at h
    have h0 := uvarint_length hu
    by_cases ht0 : tag = 0
    · rw [if_pos ht0] at h
      injection h with h1
      injection h1 with h2 h3
      injection h3 with h4 h5
      subst h5
      exact h0
    · rw [if_neg ht0] at h
      by_cases ht1 : tag = 1
      · rw [if_pos ht1] at h
        injection h with h1
        injection h1 with h2 h3
        injection h3 with h4 h5
        subst h5
        exact h0
      · rw [if_neg ht1] at h
        by_cases hlen : rest0.length < (tag - 2) / 2
        · rw [if_pos hlen] at h; cases h
        · rw [if_neg hlen] at h
          injection h with h1
          injection h1 with h2 h3
          injection h3 with h4 h5
          subst h5
          calc (rest0.drop ((tag - 2) / 2)).length
              ≤ rest0.length := by
                rw [List.length_drop]; omega
            _ < bs.length := h0

theorem iterNext_ok_not_empty {bs rest : List Nat} {v : Option (List Nat)}
    {c : Bool} (h : iterNext bs = .ok (v, c, rest)) : bs.isEmpty = false := by
  cases bs with
  | nil => exact absurd h (by simp [iterNext, uvarint])
  | cons b bs => rfl

theorem walk_oob {bs : List Nat} {elems : List (Option (List Nat) × Bool)}
    (h : IterYields bs elems) :
    ∀ k, elems.length ≤ k → iterWalk bs k = .error .index := by
  induction h with
  | nil =>
    intro k _
    rw [iterWalk]
    rfl
  | cons hnext _ ih =>
    intro k hk
    rcases k with _ | k1
    · simp at hk
    · rw [iterWalk, if_neg (by rw [iterNext_ok_not_empty hnext]; simp), hnext]
      exact ih k1 (Nat.le_of_succ_le_succ hk)

theorem count_of_yields {bs : List Nat} {elems : List (Option (List Nat) × Bool)}
    (h : IterYields bs elems) :
    ∀ fl, bs.length < fl → containerCountGo fl bs = .ok elems.length := by
  induction h with
  | nil =>
    intro fl hfl
    rcases fl with _ | f
    · omega
    · rw [containerCountGo]
      rfl
  | @cons bs v c rest elems hnext _ ih =>
    intro fl hfl
    rcases fl with _ | f
    · omega
    · rw [containerCountGo]
      simp only [iterNext_ok_not_empty hnext, Bool.false_eq_true, if_false,
        hnext, ih f (by have := iterNext_length hnext; omega), List.length_cons]

theorem trim_typeChars (t : ZType) : trimChars (typeChars t) = typeChars t := by
  cases t with
  | prim p => cases p <;> decide
  | set inner =>
    apply trimChars_eq_self_of_ends
    · intro c hc
      rw [typeChars, List.head?_cons] at hc
      injection hc with hc1
      subst hc1
      decide
    · intro c hc
      rw [typeChars,
        show 's' :: 'e' :: 't' :: '[' :: (typeChars inner ++ [']']) =
          ('s' :: 'e' :: 't' :: '[' :: typeChars inner) ++ [']'] from rfl,
        List.getLast?_concat] at hc
      injection hc with hc1
      subst hc1
      decide
  | vector inner =>
    apply trimChars_eq_self_of_ends
    · intro c hc
      rw [typeChars, List.head?_cons] at hc
      injection hc with hc1
      subst hc1
      decide
    · intro c hc
      rw [typeChars,
        show 'v' :: 'e' :: 'c' :: 't' :: 'o' :: 'r' :: '[' ::
            (typeChars inner ++ [']']) =
          ('v' :: 'e' :: 'c' :: 't' :: 'o' :: 'r' :: '[' :: typeChars inner) ++
            [']'] from rfl,
        List.getLast?_concat] at hc
      injection hc with hc1
      subst hc1
      decide
  | record cols =>
    apply trimChars_eq_self_of_ends
    · intro c hc
      rw [typeChars, List.head?_cons] at hc
      injection hc with hc1
      subst hc1
      decide
    · intro c hc
      rw [typeChars,
        show 'r' :: 'e' :: 'c' :: 'o' :: 'r' :: 'd' :: '[' ::
            (colsChars cols ++ [']']) =
          ('r' :: 'e' :: 'c' :: 'o' :: 'r' :: 'd' :: '[' :: colsChars cols) ++
            [']'] from rfl,
        List.getLast?_concat] at hc
      injection hc with hc1
      subst hc1
      decide

theorem trimSpace_typeString (t : ZType) :
    trimSpace (typeString t) = typeString t := by
  show String.mk (trimChars (typeChars t)) = String.mk (typeChars t)
  rw [trim_typeChars]

/-- C1: interning two types with the same printed form (the registry
key) yields the same canonical handle: `addType` returns the stored
object when its key is present, re-interning a second structurally
identical type returns the first one's handle, and a repeated
`LookupTypeRecord` with columns of equal printed form returns the
record object stored by the first call. -/
theorem interning_unique (s : Registry) (t1 t2 : ZType)
    (cols1 cols2 : List (String × ZType)) :
    (typeString t1 = typeString t2 →
      (addType t2 (addType t1 s).2).1 = (addType t1 s).1) ∧
    (∀ r, recordString cols1 = recordString cols2 →
      (LookupTypeRecord cols1 s).1 = some r →
      (LookupTypeRecord cols2 (LookupTypeRecord cols1 s).2).1 = some r) ∧
    (∀ old, regFind s (typeString t1) = some old → addType t1 s = (old, s)) := by
  refine ⟨?_, ?_, ?_⟩
  · intro h
    rcases hf : regFind s (typeString t1) with _ | old
    · have h1 : addType t1 s = (t1, (typeString t1, t1) :: s) := by
        unfold addType
        rw [hf]
      rw [h1]
      unfold addType
      have h2 : regFind ((typeString t1, t1) :: s) (typeString t2) = some t1 := by
        show (if typeString t1 = typeString t2 then some t1
          else regFind s (typeString t2)) = some t1
        rw [if_pos h]
      rw [h2]
    · have h1 : addType t1 s = (old, s) := by
        unfold addType
        rw [hf]
      rw [h1]
      unfold addType
      rw [← h, hf]
  · intro r h hr
    rcases hf : regFind s (recordString cols1) with _ | u
    · have h1 : LookupTypeRecord cols1 s =
          (some (.record cols1), (recordString cols1, .record cols1) :: s) := by
        unfold LookupTypeRecord
        rw [hf]
      rw [h1] at hr ⊢
      injection hr with hr1
      subst hr1
      unfold LookupTypeRecord
      have h2 : regFind ((recordString cols1, ZType.record cols1) :: s)
          (recordString cols2) = some (ZType.record cols1) := by
        show (if recordString cols1 = recordString cols2
          then some (ZType.record cols1)
          else regFind s (recordString cols2)) = some (ZType.record cols1)
        rw [if_pos h]
      rw [h2]
    · cases u with
      | record rc =>
        have h1 : LookupTypeRecord cols1 s = (some (.record rc), s) := by
          unfold LookupTypeRecord
          rw [hf]
        rw [h1] at hr ⊢
        injection hr with hr1
        subst hr1
        unfold LookupTypeRecord
        rw [← h, hf]
      | prim p =>
        have h1 : LookupTypeRecord cols1 s = (none, s) := by
          unfold LookupTypeRecord
          rw [hf]
        rw [h1] at hr
        exact Option.noConfusion hr
      | set i =>
        have h1 : LookupTypeRecord cols1 s = (none, s) := by
          unfold LookupTypeRecord
          rw [hf]
        rw [h1] at hr
        exact Option.noConfusion hr
      | vector i =>
        have h1 : LookupTypeRecord cols1 s = (none, s) := by
          unfold LookupTypeRecord
          rw [hf]
        rw [h1] at hr
        exact Option.noConfusion hr
  · intro old h
    unfold addType
    rw [h]

theorem interning_unique_witness :
    ((addType (.vector (.prim .int)) (addType (.vector (.prim .int)) typeMap0).2).1 =
      (addType (.vector (.prim .int)) typeMap0).1) ∧
    ((LookupTypeRecord [("a", .prim .int)]
        (LookupTypeRecord [("a", .prim .int)] typeMap0).2).1 =
      some (.record [("a", .prim .int)])) ∧
    (addType (.prim .int) typeMap0 = (.prim .int, typeMap0)) :=
  ⟨(interning_unique typeMap0 (.vector (.prim .int)) (.vector (.prim .int))
      [] []).1 rfl,
   (interning_unique typeMap0 (.prim .int) (.prim .int)
      [("a", .prim .int)] [("a", .prim .int)]).2.1
      (.record [("a", .prim .int)]) rfl (by decide),
   (interning_unique typeMap0 (.prim .int) (.prim .int) [] []).2.2
      (.prim .int) (by decide)⟩

/-- C2: for any type `t` registered under its canonical printed form
(as every type obtained from the registry is — primitives are
pre-registered under their names and compound types are interned under
their printed form by `addType`/`LookupTypeRecord`),
`LookupType (t.String())` takes the whole-string fast path of
`parseType` and returns exactly the handle `t`, leaving the registry
unchanged: `parse_type(print_type(t)) == t`. -/
theorem lookupType_print_roundtrip (s : Registry) (t : ZType)
    (h : regFind s (typeString t) = some t) :
    LookupType (typeString t) s = .ok (t, s) := by
  unfold LookupType parseType
  rw [trimSpace_typeString, h]

theorem lookupType_print_roundtrip_witness :
    (regFind (("vector[int]", .vector (.prim .int)) :: typeMap0)
        (typeString (.vector (.prim .int))) = some (.vector (.prim .int))) ∧
    (LookupType (typeString (.vector (.prim .int)))
        (("vector[int]", .vector (.prim .int)) :: typeMap0) =
      .ok (.vector (.prim .int),
        ("vector[int]", .vector (.prim .int)) :: typeMap0)) :=
  ⟨by decide,
   lookupType_print_roundtrip (("vector[int]", .vector (.prim .int)) :: typeMap0)
     (.vector (.prim .int)) (by decide)⟩

/-- C7 counterexample: the identifiers accepted by `parseWord` are not
the language `[A-Za-z_$][A-Za-z0-9_$]*`: the string `$x` is in that
language but `parseWord` rejects it (no identifier character leads,
since `$` is not one), while `a.b` is outside that language but
`parseWord` accepts it whole (`.` is an identifier character). -/
theorem ident_class_counterexample :
    claimIdent "$x" = true ∧ parseWord "$x" = ("", "") ∧
    claimIdent "a.b" = false ∧ parseWord "a.b" = ("", "a.b") := by
  decide

/-- C7 as amended: the identifier words accepted whole by the type
parser's `parseWord` are exactly the nonempty strings over the
character class `[A-Za-z0-9_.]` — letters, digits, underscore and dot,
with digits allowed in leading position and `$` not an identifier
character. -/
theorem parseWord_accepts_iff (w : String) (h : w ≠ "") :
    parseWord w = ("", w) ↔ w.data.all isIdChar = true := by
  have hcs : w.data ≠ [] := by
    intro hc
    apply h
    cases w
    simp only at hc
    rw [hc]
  constructor
  · intro hp
    simp only [parseWord] at hp
    rcases htw : (trimChars w.data).takeWhile isIdChar with _ | ⟨c, rest⟩
    · rw [htw] at hp
      injection hp with hp1 hp2
      exact absurd hp2.symm h
    · rw [htw] at hp
      injection hp with hp1 hp2
      have hdata : c :: rest = w.data := congrArg String.data hp2
      have hlt : (c :: rest).length ≤ (trimChars w.data).length := by
        rw [← htw]
        exact len_takeWhile_le _ _
      have hlt2 : (trimChars w.data).length ≤ w.data.length :=
        len_trimChars_le _
      have hlen : (c :: rest).length = w.data.length := by rw [hdata]
      have htrim_eq : trimChars w.data = w.data :=
        trimChars_len_eq _ (by omega)
      rw [htrim_eq, hdata] at htw
      exact List.all_eq_true.mpr (List.takeWhile_eq_self_iff.mp htw)
  · intro hall
    have hall1 : ∀ x ∈ w.data, isIdChar x = true := List.all_eq_true.mp hall
    have htrim_eq : trimChars w.data = w.data :=
      trimChars_eq_self_of_all _ (fun x hx => isIdChar_not_space (hall1 x hx))
    have htake : w.data.takeWhile isIdChar = w.data :=
      List.takeWhile_eq_self_iff.mpr hall1
    simp only [parseWord, htrim_eq, htake]
    rcases hd : w.data with _ | ⟨c, rest⟩
    · exact absurd hd hcs
    · rw [List.drop_length]
      cases w with
      | mk d =>
        have hd1 : d = c :: rest := hd
        subst hd1
        rfl

theorem parseWord_accepts_iff_witness :
    (("a.b" : String) ≠ "") ∧
    (parseWord "a.b" = ("", "a.b") ↔
      ("a.b" : String).data.all isIdChar = true) :=
  ⟨by decide, parseWord_accepts_iff "a.b" (by decide)⟩

/-- C3 counterexample: on the record `1:[NorthPole;[N;90;]-;]` (type
`record[city:string,lat:LL,long:LL]`, `LL =
record[compass:string,degree:double]`), the compiled path
`long.degree` evaluates to the typeless empty value, not to the unset
value carrying the `double` (the spec's `float64`) type: the claim as
stated is false on this input. -/
theorem unset_record_field_counterexample :
    resolve "long" [.read "degree"] northRec = Value.empty ∧
    Value.empty ≠ (⟨some (.prim .double), none⟩ : Value) := by
  decide

/-- C3 as amended: on the same record, the `long` column itself
resolves to unset-with-type (`⟨LL, nil⟩`), but the subsequent `degree`
read walks the iterator of the unset (nil) record body, exhausts it
immediately, and returns the typeless empty value `⟨nil, nil⟩`. -/
theorem unset_record_field_empty :
    recValue northRec 2 = ⟨some (.record LLcols), none⟩ ∧
    resolve "long" [.read "degree"] northRec = Value.empty := by
  decide

/-- C4 as amended: for a compiled array-index op, an out-of-bounds
index (negative included) on a value of vector type yields the unset
value carrying the vector's inner type; on any value whose type is not
a vector — set types included — the op yields the typeless empty
value. -/
theorem array_index_behavior (t : ZType) (b : Option (List Nat)) (idx : Int)
    (elems : List (Option (List Nat) × Bool)) (e : Value) :
    (IterYields (b.getD []) elems → (idx < 0 ∨ (elems.length : Int) ≤ idx) →
      arrayIndexApply idx ⟨some (.vector t), b⟩ = ⟨some t, none⟩) ∧
    ((∀ t1, e.typ ≠ some (ZType.vector t1)) →
      arrayIndexApply idx e = Value.empty) := by
  constructor
  · intro hy hoob
    have hvi : VectorIndex ⟨some (.vector t), b⟩ idx = .error .index := by
      show (if idx < 0 then (.error .index : Except ZErr Value)
        else
          match iterWalk (b.getD []) idx.toNat with
          | .error er => .error er
          | .ok zv => .ok ⟨some t, zv⟩) = .error .index
      by_cases hidx : idx < 0
      · rw [if_pos hidx]
      · rw [if_neg hidx]
        have hk : elems.length ≤ idx.toNat := by
          rcases hoob with h1 | h1 <;> omega
        rw [walk_oob hy idx.toNat hk]
    unfold arrayIndexApply
    rw [hvi]
    rfl
  · intro hne
    unfold arrayIndexApply
    have hvi : VectorIndex e idx = .error .notVector := by
      unfold VectorIndex
      rcases ht : e.typ with _ | τ
      · rfl
      · cases τ with
        | vector i => exact absurd ht (hne i)
        | prim p => rfl
        | set i => rfl
        | record cols => rfl
    rw [hvi]

/-- C4 counterexample: an out-of-bounds index on a set-typed value (the
empty set, index 0) yields the typeless empty value, not the unset
value carrying the set's inner type as the claim states for sets:
`VectorIndex` rejects sets with `ErrNotVector`, which
`arrayIndex.apply` maps to the empty value. -/
theorem array_index_set_counterexample :
    arrayIndexApply 0 ⟨some (.set (.prim .int)), some []⟩ = Value.empty ∧
    Value.empty ≠ (⟨some (.prim .int), none⟩ : Value) := by
  decide

theorem array_index_behavior_witness :
    (arrayIndexApply 5 ⟨some (.vector (.prim .int)), some []⟩ =
      ⟨some (.prim .int), none⟩) ∧
    (arrayIndexApply 5 ⟨some (.prim .string), none⟩ = Value.empty) :=
  ⟨(array_index_behavior (.prim .int) (some []) 5 [] Value.empty).1
      IterYields.nil (Or.inr (by decide)),
   (array_index_behavior (.prim .int) (some []) 5 []
      ⟨some (.prim .string), none⟩).2
      (fun t1 ht => ZType.noConfusion (Option.some.inj ht))⟩

/-- C5: the compiled evaluator recovers every failure locally and
returns normally (all the functions below are total): a field read on
a non-record value or for an absent field returns the unset sentinel;
any error of the indexing primitive is mapped to an unset result (body
`nil`), with `ErrIndex` in particular preserving the inner type; and an
absent top-level field makes the resolver return the unset sentinel
without applying further ops.  No error value escapes any of these
functions. -/
theorem resolver_recovers (e : Value) (f : String) (idx : Int)
    (ops : List FieldOp) (r : Record) :
    ((∀ cols, e.typ ≠ some (ZType.record cols)) →
      fieldReadApply f e = Value.empty) ∧
    (∀ cols, e.typ = some (ZType.record cols) → findCol cols f = none →
      fieldReadApply f e = Value.empty) ∧
    (∀ er, VectorIndex e idx = .error er →
      (arrayIndexApply idx e).body = none) ∧
    (VectorIndex e idx = .error .index →
      arrayIndexApply idx e = ⟨InnerType e.typ, none⟩) ∧
    (lut r.recType f = none → resolve f ops r = Value.empty) := by
  refine ⟨?_, ?_, ?_, ?_, ?_⟩
  · intro hne
    unfold fieldReadApply
    rcases ht : e.typ with _ | τ
    · rfl
    · cases τ with
      | record cols => exact absurd ht (hne cols)
      | prim p => rfl
      | set i => rfl
      | vector i => rfl
  · intro cols hty hfc
    unfold fieldReadApply
    rw [hty]
    simp only [hfc]
  · intro er hvi
    unfold arrayIndexApply
    rw [hvi]
    cases er <;> rfl
  · intro hvi
    unfold arrayIndexApply
    rw [hvi]
  · intro hl
    unfold resolve
    rw [hl]

theorem resolver_recovers_witness :
    (fieldReadApply "x" ⟨some (.prim .int), none⟩ = Value.empty) ∧
    (fieldReadApply "x" ⟨some (.record [("a", .prim .int)]), none⟩ =
      Value.empty) ∧
    ((arrayIndexApply 0 ⟨some (.prim .int), none⟩).body = none) ∧
    (arrayIndexApply 0 ⟨some (.vector (.prim .int)), some []⟩ =
      ⟨InnerType (some (.vector (.prim .int))), none⟩) ∧
    (resolve "zz" [] ⟨[("a", .prim .int)], none⟩ = Value.empty) :=
  ⟨(resolver_recovers ⟨some (.prim .int), none⟩ "x" 0 [] ⟨[], none⟩).1
      (fun cols ht => ZType.noConfusion (Option.some.inj ht)),
   (resolver_recovers ⟨some (.record [("a", .prim .int)]), none⟩ "x" 0 []
      ⟨[], none⟩).2.1 [("a", .prim .int)] rfl (by decide),
   (resolver_recovers ⟨some (.prim .int), none⟩ "x" 0 [] ⟨[], none⟩).2.2.1
      .notVector (by decide),
   (resolver_recovers ⟨some (.vector (.prim .int)), some []⟩ "x" 0 []
      ⟨[], none⟩).2.2.2.1 (by decide),
   (resolver_recovers ⟨some (.prim .int), none⟩ "zz" 0 []
      ⟨[("a", .prim .int)], none⟩).2.2.2.2 (by decide)⟩

/-- C8: `ContainerLength` on a set- or vector-typed encoding returns
`ErrLenUnset` for a nil body and the number of elements the iterator
yields for a non-nil body; on a record-typed encoding it returns
`ErrNotContainer` even though `IsContainerType` counts records as
containers. -/
theorem container_length_behavior (t : ZType) (cols : List (String × ZType))
    (e : TypedEncoding) (bs : List Nat)
    (elems : List (Option (List Nat) × Bool)) (b : Option (List Nat)) :
    ((e.typ = some (.set t) ∨ e.typ = some (.vector t)) →
      (e.body = none → ContainerLength e = (-1, some .lenUnset)) ∧
      (e.body = some bs → IterYields bs elems →
        ContainerLength e = ((elems.length : Int), none))) ∧
    (IsContainerType (.record cols) = true ∧
      ContainerLength ⟨some (.record cols), b⟩ = (-1, some .notContainer)) := by
  constructor
  · intro hty
    constructor
    · intro hb
      unfold ContainerLength
      rcases hty with h | h <;> rw [h, hb]
    · intro hb hy
      unfold ContainerLength
      have hcount := count_of_yields hy (bs.length + 1) (Nat.lt_succ_self _)
      rcases hty with h | h <;> rw [h, hb] <;> simp only [hcount]
  · exact ⟨rfl, rfl⟩

theorem container_length_behavior_witness :
    (ContainerLength ⟨some (.set (.prim .string)), none⟩ =
      (-1, some .lenUnset)) ∧
    (ContainerLength ⟨some (.set (.prim .string)), some [4, 78]⟩ =
      (1, none)) ∧
    (IsContainerType (.record [("a", .prim .int)]) = true ∧
      ContainerLength ⟨some (.record [("a", .prim .int)]), none⟩ =
        (-1, some .notContainer)) :=
  ⟨((container_length_behavior (.prim .string) []
      ⟨some (.set (.prim .string)), none⟩ [] [] none).1 (Or.inl rfl)).1 rfl,
   ((container_length_behavior (.prim .string) []
      ⟨some (.set (.prim .string)), some [4, 78]⟩ [4, 78]
      [(some [78], false)] none).1 (Or.inl rfl)).2 rfl
      (IterYields.cons (by decide) IterYields.nil),
   (container_length_behavior (.prim .string) [("a", .prim .int)]
      ⟨some (.record [("a", .prim .int)]), none⟩ [] [] none).2⟩

/-- C9: a field read addressing a column whose ordinal position lies at
or past the number of elements the (well-formed) record body yields
returns the empty value — the walk checks iterator exhaustion before
every step, so the evaluator returns normally on short record
bodies. -/
theorem short_record_body (cols : List (String × ZType)) (f : String)
    (n : Nat) (t : ZType) (bs : List Nat)
    (elems : List (Option (List Nat) × Bool))
    (hfind : findCol cols f = some (n, t))
    (hy : IterYields bs elems) (hshort : elems.length ≤ n) :
    fieldReadApply f ⟨some (.record cols), some bs⟩ = Value.empty := by
  simp only [fieldReadApply, Option.getD_some, hfind, walk_oob hy n hshort]

theorem short_record_body_witness :
    (findCol [("a", .prim .string), ("b", .prim .string)] "b" =
      some (1, .prim .string)) ∧
    (fieldReadApply "b"
        ⟨some (.record [("a", .prim .string), ("b", .prim .string)]),
          some [2]⟩ = Value.empty) :=
  ⟨by decide,
   short_record_body [("a", .prim .string), ("b", .prim .string)] "b" 1
     (.prim .string) [2] [(some [], false)] (by decide)
     (IterYields.cons (by decide) IterYields.nil) (by decide)⟩

/-- C10: `LookupType` silently accepts trailing junk: on the input
`"int junk"` the word parser returns the word `int` with remainder
` junk`, the word resolves in the registry, and `LookupType` discards
the remainder and returns the `int` type with no error. -/
theorem lookupType_ignores_trailing :
    LookupType "int junk" typeMap0 = .ok (.prim .int, typeMap0) ∧
    parseWord "int junk" = (" junk", "int") := by
  decide

/-- C6 counterexample: the type parser rejects every name of the
spec's primitive list that is not also a zeek name, and the compound
forms `array[...]` and `union[...]`: each is `unknown type`. -/
theorem spec_type_names_counterexample :
    LookupType "byte" typeMap0 = .error "unknown type: byte" ∧
    LookupType "int16" typeMap0 = .error "unknown type: int16" ∧
    LookupType "uint16" typeMap0 = .error "unknown type: uint16" ∧
    LookupType "int32" typeMap0 = .error "unknown type: int32" ∧
    LookupType "uint32" typeMap0 = .error "unknown type: uint32" ∧
    LookupType "int64" typeMap0 = .error "unknown type: int64" ∧
    LookupType "uint64" typeMap0 = .error "unknown type: uint64" ∧
    LookupType "float64" typeMap0 = .error "unknown type: float64" ∧
    LookupType "bytes" typeMap0 = .error "unknown type: bytes" ∧
    LookupType "bstring" typeMap0 = .error "unknown type: bstring" ∧
    LookupType "ip" typeMap0 = .error "unknown type: ip" ∧
    LookupType "net" typeMap0 = .error "unknown type: net" ∧
    LookupType "duration" typeMap0 = .error "unknown type: duration" ∧
    LookupType "null" typeMap0 = .error "unknown type: null" ∧
    LookupType "array[int32]" typeMap0 = .error "unknown type: array" ∧
    LookupType "union[int,port]" typeMap0 = .error "unknown type: union" := by
  repeat' apply And.intro
  all_goals decide

/-- C6 as amended: the type language accepted by the parser is the
zeek-era one: the primitive names of `typeMap` — `bool`, `count`,
`int`, `double`, `time`, `interval`, `string`, `pattern` (also written
`regexp`), `port`, `addr`, `subnet`, `enum`, `unset` — resolve to their
primitive singletons, and the compound forms `set[...]`, `vector[...]`
and `record[...]` parse to the corresponding interned compound
types. -/
theorem accepted_type_names :
    LookupType "bool" typeMap0 = .ok (.prim .bool, typeMap0) ∧
    LookupType "count" typeMap0 = .ok (.prim .count, typeMap0) ∧
    LookupType "int" typeMap0 = .ok (.prim .int, typeMap0) ∧
    LookupType "double" typeMap0 = .ok (.prim .double, typeMap0) ∧
    LookupType "time" typeMap0 = .ok (.prim .time, typeMap0) ∧
    LookupType "interval" typeMap0 = .ok (.prim .interval, typeMap0) ∧
    LookupType "string" typeMap0 = .ok (.prim .string, typeMap0) ∧
    LookupType "pattern" typeMap0 = .ok (.prim .pattern, typeMap0) ∧
    LookupType "regexp" typeMap0 = .ok (.prim .pattern, typeMap0) ∧
    LookupType "port" typeMap0 = .ok (.prim .port, typeMap0) ∧
    LookupType "addr" typeMap0 = .ok (.prim .addr, typeMap0) ∧
    LookupType "subnet" typeMap0 = .ok (.prim .subnet, typeMap0) ∧
    LookupType "enum" typeMap0 = .ok (.prim .enum, typeMap0) ∧
    LookupType "unset" typeMap0 = .ok (.prim .unset, typeMap0) ∧
    LookupType "set[int]" typeMap0 =
      .ok (.set (.prim .int), ("set[int]", .set (.prim .int)) :: typeMap0) ∧
    LookupType "vector[int]" typeMap0 =
      .ok (.vector (.prim .int),
        ("vector[int]", .vector (.prim .int)) :: typeMap0) ∧
    LookupType "record[a:int,b:set[string]]" typeMap0 =
      .ok (.record [("a", .prim .int), ("b", .set (.prim .string))],
        ("record[a:int,b:set[string]]",
          .record [("a", .prim .int), ("b", .set (.prim .string))]) ::
        ("set[string]", .set (.prim .string)) :: typeMap0) := by
  repeat' apply And.intro
  all_goals decide
